import Mathlib

/-!
Verification of the earthquake-visualizer data-refresh and filtering pipeline.

The definitions below are a shallow embedding of the logic in `src/App.jsx`:
the fetched-event data model, the feed-record parser (`fetchData`'s mapping
step), the filter (`filtered` memo), the summary statistics (`stats` memo),
the style mappers (`getColor`, `getRadius`), the filter-reset handler, and a
small transition system for the loading/error state of `fetchData`.
JavaScript numbers are modelled as rationals (ℚ); the comparisons and
arithmetic the code performs on them are exact, so no floating-point
behaviour is lost for these claims.
-/

/-- Event record as built in `fetchData` (App.jsx lines 56-69). -/
structure Event where
  id : String
  mag : ℚ
  place : String
  time : Int
  url : String
  depth : ℚ
  lat : ℚ
  lon : ℚ
  type : String
  deriving DecidableEq

/-- One feed feature as consumed by `fetchData`: `geometry.coordinates`
is `[longitude, latitude, depth]`; `properties.mag` and `properties.place`
may be absent (`??` defaults apply). -/
structure Feature where
  id : String
  coordinates : ℚ × ℚ × ℚ
  mag : Option ℚ
  place : Option String
  time : Int
  url : String
  type : String
  deriving DecidableEq

/-- The mapping applied to each feature in `fetchData` (App.jsx lines 56-69):
`mag = f.properties.mag ?? 0`, `place = f.properties.place ?? 'Unknown location'`. -/
def parseFeature (f : Feature) : Event :=
  { id := f.id
    mag := f.mag.getD 0
    place := f.place.getD "Unknown location"
    time := f.time
    url := f.url
    depth := f.coordinates.2.2
    lat := f.coordinates.2.1
    lon := f.coordinates.1
    type := f.type }

/-- Filter criteria: the four pieces of UI state `minMag`, `maxMag`,
`query`, `colorMode` (App.jsx lines 39-42). `colorMode` is a string in the
source (`'severity'` or `'depth'`), kept as a string here. -/
structure Criteria where
  minMag : ℚ
  maxMag : ℚ
  query : String
  colorMode : String
  deriving DecidableEq

/-- Initial values of the four criteria states (App.jsx lines 39-42). -/
def initialCriteria : Criteria :=
  { minMag := 0, maxMag := 10, query := "", colorMode := "severity" }

/-- The Reset button handler (App.jsx line 201):
`setMinMag(0); setMaxMag(10); setQuery(''); setColorMode('severity')`. -/
def resetCriteria (_c : Criteria) : Criteria :=
  { minMag := 0, maxMag := 10, query := "", colorMode := "severity" }

/-- Summary statistics record (App.jsx lines 130-135). -/
structure Stats where
  count : Nat
  maxMag : ℚ
  deriving DecidableEq

/-- JavaScript `a || b` on numbers, restricted to rationals: 0 is the only
falsy rational in this model (there is no NaN). Used for `e.mag || 0`. -/
def jsOrQ (a b : ℚ) : ℚ := if a = 0 then b else a

/-- JavaScript `a || b` on strings: the empty string is falsy.
Used for `err.message || 'Unknown error'`. -/
def jsOrStr (a b : String) : String := if a = "" then b else a

/-- `Math.max(...l)` for a nonempty list; the `[]` case is unreachable where
this is used (the caller guards on `earthquakes.length`). -/
def maxListQ : List ℚ → ℚ
  | [] => 0
  | a :: t => t.foldl max a

/-- The `stats` memo (App.jsx lines 130-135): `{count: 0, maxMag: 0}` for an
empty list, else `count = earthquakes.length` and
`maxMag = Math.max(...earthquakes.map(e => e.mag || 0))`. -/
def stats (earthquakes : List Event) : Stats :=
  if earthquakes.length = 0 then { count := 0, maxMag := 0 }
  else
    { count := earthquakes.length
      maxMag := maxListQ (earthquakes.map fun e => jsOrQ e.mag 0) }

/-- Whitespace test used by the string-trim model. -/
def isWS (c : Char) : Bool := c.isWhitespace

/-- Drop leading whitespace characters from a character list. -/
def dropLeadingWS : List Char → List Char
  | [] => []
  | c :: t => if isWS c then dropLeadingWS t else c :: t

/-- JavaScript `s.trim()`: strip leading and trailing whitespace. -/
def jsTrim (s : String) : String :=
  ⟨((dropLeadingWS ((dropLeadingWS s.data).reverse)).reverse)⟩

/-- JavaScript `s.toLowerCase()` (ASCII case mapping, which covers the
comparisons made here). -/
def jsToLower (s : String) : String := ⟨s.data.map Char.toLower⟩

/-- Boolean prefix test on character lists (helper for substring search). -/
def charsPre : List Char → List Char → Bool
  | [], _ => true
  | _ :: _, [] => false
  | a :: as, b :: bs => a == b && charsPre as bs

/-- Boolean contiguous-substring test on character lists: the needle occurs
at some position of the haystack. -/
def charsContains (needle : List Char) : List Char → Bool
  | [] => charsPre needle []
  | h :: t => charsPre needle (h :: t) || charsContains needle t

/-- JavaScript `hay.includes(needle)` for strings (contiguous substring). -/
def jsIncludes (hay needle : String) : Bool :=
  charsContains needle.toList hay.toList

/-- The `filtered` memo (App.jsx lines 93-98):
`q = query.trim().toLowerCase()`, then filter by magnitude range, then by
`q ? e.place.toLowerCase().includes(q) : true`. -/
def filtered (earthquakes : List Event) (minMag maxMag : ℚ) (query : String) :
    List Event :=
  let q := jsToLower (jsTrim query)
  (earthquakes.filter fun e =>
      decide (e.mag ≥ minMag) && decide (e.mag ≤ maxMag)).filter
    fun e => if q ≠ "" then jsIncludes (jsToLower e.place) q else true

/-- The derivation pipeline of the spec (§4.3): filtered view plus stats,
assembled from the two memos in the source. -/
def derive (rawEvents : List Event) (c : Criteria) : List Event × Stats :=
  (filtered rawEvents c.minMag c.maxMag c.query, stats rawEvents)

/-- `getColor` (App.jsx lines 106-122): depth mode has four tiers with
thresholds 300/100/50, any other mode falls to severity with thresholds
6/5/4/3, evaluated top-down. -/
def getColor (colorMode : String) (e : Event) : String :=
  if colorMode = "depth" then
    if e.depth ≥ 300 then "#0b3d91"
    else if e.depth ≥ 100 then "#2b77d9"
    else if e.depth ≥ 50 then "#5aa0f0"
    else "#9fd0ff"
  else
    if e.mag ≥ 6 then "#b02a2a"
    else if e.mag ≥ 5 then "#f97316"
    else if e.mag ≥ 4 then "#f59e0b"
    else if e.mag ≥ 3 then "#eab308"
    else "#16a34a"

/-- `getRadius` (App.jsx lines 124-127):
`mag <= 0 ? 4 : Math.max(4, Math.min(40, mag * 4))`. -/
def getRadius (mag : ℚ) : ℚ :=
  if mag ≤ 0 then 4 else max 4 (min 40 (mag * 4))

/-- Fetch-related component state (App.jsx lines 34-36):
`earthquakes`, `loading`, `error`. -/
structure RefreshState where
  earthquakes : List Event
  loading : Bool
  error : Option String
  deriving DecidableEq

/-- Initial component state (App.jsx lines 34-36): empty list,
`loading = true`, `error = null`. -/
def initialRefreshState : RefreshState :=
  { earthquakes := [], loading := true, error := none }

/-- Outcome of one fetch attempt: either a parsed feature list (the success
path through `res.json()` and `data.features.map`) or a caught error whose
message feeds `setError` (HTTP failure, network failure or parse failure
all land in the same `catch`). -/
inductive FetchOutcome where
  | success (features : List Feature)
  | failure (msg : String)
  deriving DecidableEq

/-- The synchronous prefix of `fetchData` (App.jsx lines 48-49):
`setLoading(true); setError(null)`. -/
def fetchDataStart (s : RefreshState) : RefreshState :=
  { s with loading := true, error := none }

/-- The completion of `fetchData` (App.jsx lines 56-76): on success,
`setEarthquakes(features)`; on failure, `setError(err.message || 'Unknown
error')`; either way the `finally` block runs `setLoading(false)`. -/
def fetchDataFinish (s : RefreshState) : FetchOutcome → RefreshState
  | .success features =>
      { s with earthquakes := features.map parseFeature, loading := false }
  | .failure msg =>
      { s with error := some (jsOrStr msg "Unknown error"), loading := false }

/-- One whole fetch attempt, start to completion, with no interleaving. -/
def fetchDataRun (s : RefreshState) (o : FetchOutcome) : RefreshState :=
  fetchDataFinish (fetchDataStart s) o

/-- Atomic steps of the refresh pipeline: a fetch attempt starting, or an
in-flight attempt completing with some outcome. -/
inductive FetchAction where
  | start
  | finish (o : FetchOutcome)
  deriving DecidableEq

/-- Pipeline state paired with the number of in-flight fetches (the source
does not serialize overlapping fetches, so several may be in flight). -/
structure SysState where
  rs : RefreshState
  inFlight : Nat
  deriving DecidableEq

/-- Initial pipeline state: the component state before any fetch begins,
with no fetch in flight. -/
def initSys : SysState := { rs := initialRefreshState, inFlight := 0 }

/-- Effect of one action on the pipeline state. -/
def sysStep (s : SysState) : FetchAction → SysState
  | .start => { rs := fetchDataStart s.rs, inFlight := s.inFlight + 1 }
  | .finish o => { rs := fetchDataFinish s.rs o, inFlight := s.inFlight - 1 }

/-- State reached after a trace of actions; the head of the list is the most
recent action, so `runTrace [] = initSys`. -/
def runTrace : List FetchAction → SysState
  | [] => initSys
  | a :: t => sysStep (runTrace t) a

/-- A sample event used by witness theorems. -/
def evA : Event :=
  { id := "a", mag := 5, place := "Tokyo, Japan", time := 0,
    url := "u", depth := 10, lat := 35, lon := 139, type := "earthquake" }

/-- A sample feature with missing magnitude and place, used by witnesses. -/
def featNoMag : Feature :=
  { id := "x", coordinates := (1, 2, 3), mag := none, place := none,
    time := 0, url := "u", type := "earthquake" }

/-! Helper lemmas shared by the claim theorems. -/

/-- JavaScript `a || 0` is the identity on rationals (no NaN in this model). -/
lemma jsOrQ_zero (a : ℚ) : jsOrQ a 0 = a := by
  unfold jsOrQ; split_ifs with h
  · exact h.symm
  · rfl

/-- The seed of a max-fold is a lower bound of the result. -/
lemma le_foldl_max (t : List ℚ) (a : ℚ) : a ≤ t.foldl max a :=
  by
  induction t generalizing a with
  | nil => exact le_refl a
  | cons b t ih => exact le_trans (le_max_left a b) (ih (max a b))

/-- Every list element is a lower bound of a max-fold over the list. -/
lemma mem_le_foldl_max (t : List ℚ) (a x : ℚ) (hx : x ∈ t) :
    x ≤ t.foldl max a := by
  induction t generalizing a with
  | nil => cases hx
  | cons b t ih =>
    rcases List.mem_cons.mp hx with rfl | h
    · exact le_trans (le_max_right a x) (le_foldl_max t (max a x))
    · exact ih (max a b) h

/-- A max-fold returns its seed or one of the list elements. -/
lemma foldl_max_mem (t : List ℚ) (a : ℚ) :
    t.foldl max a = a ∨ t.foldl max a ∈ t := by
  induction t generalizing a with
  | nil => exact Or.inl rfl
  | cons b t ih =>
    rcases ih (max a b) with h | h
    · rcases max_choice a b with hm | hm
      · exact Or.inl (by rw [List.foldl_cons, h, hm])
      · exact Or.inr (by rw [List.foldl_cons, h, hm]; exact List.mem_cons_self b t)
    · exact Or.inr (List.mem_cons_of_mem b h)

/-! Claim theorems. -/

/-- C1: the filtered result contains exactly the raw events whose magnitude
lies in `[minMag, maxMag]` and whose place (lowercased) contains the trimmed,
lowercased query when that query is nonempty; it is a sublist of the raw
list, hence a subset preserving the input's relative order. -/
theorem filtered_spec (evs : List Event) (minMag maxMag : ℚ) (query : String) :
    (∀ e : Event,
      e ∈ filtered evs minMag maxMag query ↔
        e ∈ evs ∧ minMag ≤ e.mag ∧ e.mag ≤ maxMag ∧
          (jsToLower (jsTrim query) = "" ∨
            jsIncludes (jsToLower e.place) (jsToLower (jsTrim query)) = true)) ∧
    List.Sublist (filtered evs minMag maxMag query) evs := by
  constructor
  · intro e
    simp only [filtered, List.mem_filter, Bool.and_eq_true, decide_eq_true_eq]
    by_cases hq : jsToLower (jsTrim query) = ""
    · simp [hq, and_assoc]
    · simp [hq, and_assoc]
  · exact (List.filter_sublist _).trans (List.filter_sublist _)

/-- C1 witness: a concrete event passing concrete criteria is in the result. -/
theorem filtered_spec_witness : evA ∈ filtered [evA] 0 10 "" :=
  ((filtered_spec [evA] 0 10 "").1 evA).mpr
    ⟨by simp, by norm_num [evA], by norm_num [evA], Or.inl (by decide)⟩

/-- C2: `stats` counts all raw events (not the filtered ones), its `maxMag`
is the greatest magnitude among the raw events, both components are 0 on an
empty list, and the stats of the derivation pipeline do not depend on the
filter criteria. -/
theorem stats_spec (evs : List Event) :
    (stats evs).count = evs.length ∧
    (evs = [] → stats evs = { count := 0, maxMag := 0 }) ∧
    (evs ≠ [] →
      (∀ e ∈ evs, e.mag ≤ (stats evs).maxMag) ∧
      (∃ e ∈ evs, (stats evs).maxMag = e.mag)) ∧
    (∀ c₁ c₂ : Criteria, (derive evs c₁).2 = (derive evs c₂).2) := by
  refine ⟨?_, ?_, ?_, fun c₁ c₂ => rfl⟩
  · unfold stats
    split_ifs with h
    · simpa using h.symm
    · rfl
  · intro h; subst h; rfl
  · intro hne
    match evs, hne with
    | e0 :: rest, _ =>
      have hs : stats (e0 :: rest) =
          { count := (e0 :: rest).length
            maxMag := maxListQ ((e0 :: rest).map fun e => jsOrQ e.mag 0) } := by
        unfold stats; rw [if_neg (by simp)]
      rw [hs]
      simp only [List.map_cons, maxListQ]
      constructor
      · intro e he
        rcases List.mem_cons.mp he with rfl | h
        · rw [jsOrQ_zero]
          exact le_foldl_max _ _
        · have hle := mem_le_foldl_max (rest.map fun x => jsOrQ x.mag 0)
            (jsOrQ e0.mag 0) (jsOrQ e.mag 0) (List.mem_map_of_mem _ h)
          rwa [jsOrQ_zero] at hle
      · rcases foldl_max_mem (rest.map fun e => jsOrQ e.mag 0) (jsOrQ e0.mag 0)
          with h | h
        · exact ⟨e0, List.mem_cons_self _ _, by rw [h, jsOrQ_zero]⟩
        · rcases List.mem_map.mp h with ⟨e, he, heq⟩
          exact ⟨e, List.mem_cons_of_mem _ he, by rw [← heq, jsOrQ_zero]⟩

/-- C2 witness: the upper-bound clause evaluated on a singleton list. -/
theorem stats_spec_witness :
    ([evA] : List Event) ≠ [] ∧ evA.mag ≤ (stats [evA]).maxMag :=
  ⟨by simp, ((stats_spec [evA]).2.2.1 (by simp)).1 evA (by simp)⟩

/-- C3: `getRadius` returns the fixed minimum 4 for nonpositive magnitudes,
returns `mag * 4` clamped to `[4, 40]` for positive magnitudes, and its
value always lies in `[4, 40]`. -/
theorem getRadius_spec (m : ℚ) :
    (m ≤ 0 → getRadius m = 4) ∧
    (0 < m → getRadius m = max 4 (min 40 (m * 4))) ∧
    4 ≤ getRadius m ∧ getRadius m ≤ 40 := by
  unfold getRadius
  rcases le_or_lt m 0 with h | h
  · rw [if_pos h]
    refine ⟨fun _ => rfl, fun h0 => absurd h (not_le.mpr h0), le_refl _, by norm_num⟩
  · rw [if_neg (not_le.mpr h)]
    refine ⟨fun h0 => absurd h0 (not_le.mpr h), fun _ => rfl, le_max_left _ _, ?_⟩
    exact max_le (by norm_num) (min_le_left _ _)

/-- C3 witness: the clamp clause at magnitude 100 and the floor clause at
magnitude -1. -/
theorem getRadius_spec_witness :
    (0:ℚ) < 100 ∧ getRadius 100 = max 4 (min 40 (100 * 4)) ∧
    (-1:ℚ) ≤ 0 ∧ getRadius (-1) = 4 :=
  ⟨by norm_num, (getRadius_spec 100).2.1 (by norm_num), by norm_num,
    (getRadius_spec (-1)).1 (by norm_num)⟩

/-- C4: `getRadius` is monotonically non-decreasing on positive magnitudes. -/
theorem getRadius_mono (m₁ m₂ : ℚ) (h₁ : 0 < m₁) (h₂ : m₁ ≤ m₂) :
    getRadius m₁ ≤ getRadius m₂ := by
  unfold getRadius
  rw [if_neg (not_le.mpr h₁), if_neg (not_le.mpr (lt_of_lt_of_le h₁ h₂))]
  gcongr

/-- C4 witness: monotonicity evaluated at magnitudes 1 and 2. -/
theorem getRadius_mono_witness :
    (0:ℚ) < 1 ∧ (1:ℚ) ≤ 2 ∧ getRadius 1 ≤ getRadius 2 :=
  ⟨by norm_num, by norm_num, getRadius_mono 1 2 (by norm_num) (by norm_num)⟩

/-- C5: `getColor` selects exactly one tier per mode, with thresholds
inclusive on the lower bound and evaluated top-down: in depth mode the tiers
are cut at 300/100/50, in severity mode at 6/5/4/3, and magnitude exactly 6
maps to the most severe tier. -/
theorem getColor_spec (e : Event) :
    (getColor "depth" e = "#0b3d91" ↔ 300 ≤ e.depth) ∧
    (getColor "depth" e = "#2b77d9" ↔ 100 ≤ e.depth ∧ e.depth < 300) ∧
    (getColor "depth" e = "#5aa0f0" ↔ 50 ≤ e.depth ∧ e.depth < 100) ∧
    (getColor "depth" e = "#9fd0ff" ↔ e.depth < 50) ∧
    (getColor "severity" e = "#b02a2a" ↔ 6 ≤ e.mag) ∧
    (getColor "severity" e = "#f97316" ↔ 5 ≤ e.mag ∧ e.mag < 6) ∧
    (getColor "severity" e = "#f59e0b" ↔ 4 ≤ e.mag ∧ e.mag < 5) ∧
    (getColor "severity" e = "#eab308" ↔ 3 ≤ e.mag ∧ e.mag < 4) ∧
    (getColor "severity" e = "#16a34a" ↔ e.mag < 3) ∧
    (e.mag = 6 → getColor "severity" e = "#b02a2a") := by
  unfold getColor
  norm_num
  split_ifs <;> simp_all <;> (repeat' constructor) <;> (intros; linarith)

/-- C5 witness: an event of magnitude exactly 6 gets the most severe tier. -/
theorem getColor_spec_witness :
    getColor "severity"
      { id := "b", mag := 6, place := "p", time := 0, url := "u",
        depth := 350, lat := 0, lon := 0, type := "earthquake" } = "#b02a2a" :=
  (getColor_spec _).2.2.2.2.2.2.2.2.2 rfl

/-- C6: a feature with a missing magnitude parses to an event of magnitude 0,
a missing place parses to "Unknown location", and an event whose magnitude
defaulted to 0 is excluded from any filtered result requiring a positive
minimum magnitude. -/
theorem parseFeature_defaults (f : Feature) (evs : List Event)
    (minMag maxMag : ℚ) (query : String) :
    (f.mag = none → (parseFeature f).mag = 0) ∧
    (f.place = none → (parseFeature f).place = "Unknown location") ∧
    (f.mag = none → 0 < minMag →
      parseFeature f ∉ filtered evs minMag maxMag query) := by
  refine ⟨fun h => by simp [parseFeature, h], fun h => by simp [parseFeature, h], ?_⟩
  intro hmag hmin hmem
  have h0 : (parseFeature f).mag = 0 := by simp [parseFeature, hmag]
  simp only [filtered, List.mem_filter, Bool.and_eq_true, decide_eq_true_eq]
    at hmem
  have := hmem.1.2.1
  rw [h0] at this
  exact absurd (lt_of_lt_of_le hmin this) (lt_irrefl 0)

/-- C6 witness: the defaults and the exclusion evaluated on a concrete
feature lacking magnitude and place, with minimum magnitude 1. -/
theorem parseFeature_defaults_witness :
    (parseFeature featNoMag).mag = 0 ∧
    (parseFeature featNoMag).place = "Unknown location" ∧
    parseFeature featNoMag ∉ filtered [parseFeature featNoMag] 1 10 "" :=
  ⟨(parseFeature_defaults featNoMag [] 1 10 "").1 rfl,
   (parseFeature_defaults featNoMag [] 1 10 "").2.1 rfl,
   (parseFeature_defaults featNoMag [parseFeature featNoMag] 1 10 "").2.2
     rfl (by norm_num)⟩

/-- C7: every fetch attempt clears `error` at the start and leaves the event
list untouched there; a successful attempt ends with `error = none`; a failed
attempt sets `error` and leaves the event list exactly as it was before the
attempt. -/
theorem fetchDataRun_spec (s : RefreshState) (o : FetchOutcome) :
    (fetchDataStart s).error = none ∧
    (fetchDataStart s).earthquakes = s.earthquakes ∧
    (∀ features, o = FetchOutcome.success features →
      (fetchDataRun s o).error = none) ∧
    (∀ msg, o = FetchOutcome.failure msg →
      (fetchDataRun s o).error = some (jsOrStr msg "Unknown error") ∧
      (fetchDataRun s o).earthquakes = s.earthquakes) := by
  refine ⟨rfl, rfl, ?_, ?_⟩
  · rintro features rfl; rfl
  · rintro msg rfl; exact ⟨rfl, rfl⟩

/-- C7 witness: a failed fetch after a state holding one event keeps that
event list and records the error message. -/
theorem fetchDataRun_spec_witness :
    (fetchDataRun { earthquakes := [evA], loading := false, error := none }
        (FetchOutcome.failure "boom")).error =
      some (jsOrStr "boom" "Unknown error") ∧
    (fetchDataRun { earthquakes := [evA], loading := false, error := none }
        (FetchOutcome.failure "boom")).earthquakes = [evA] :=
  (fetchDataRun_spec { earthquakes := [evA], loading := false, error := none }
    (FetchOutcome.failure "boom")).2.2.2 "boom" rfl

/-- C8: the reset handler restores exactly the default criteria
(minimum 0, maximum 10, empty query, severity color mode) regardless of the
prior criteria. -/
theorem resetCriteria_spec (c : Criteria) :
    resetCriteria c = initialCriteria ∧
    (resetCriteria c).minMag = 0 ∧ (resetCriteria c).maxMag = 10 ∧
    (resetCriteria c).query = "" ∧ (resetCriteria c).colorMode = "severity" :=
  ⟨rfl, rfl, rfl, rfl, rfl⟩

/-- C8 witness: reset applied to a fully non-default prior state. -/
theorem resetCriteria_spec_witness :
    resetCriteria ⟨3, 4, "q", "depth"⟩ = initialCriteria :=
  (resetCriteria_spec ⟨3, 4, "q", "depth"⟩).1

/-- C9: when the minimum magnitude exceeds the maximum, the filtered result
is empty for every raw list and query. -/
theorem filtered_empty_range (evs : List Event) (minMag maxMag : ℚ)
    (query : String) (h : maxMag < minMag) :
    filtered evs minMag maxMag query = [] := by
  have h1 : evs.filter (fun e =>
      decide (e.mag ≥ minMag) && decide (e.mag ≤ maxMag)) = [] := by
    rw [List.filter_eq_nil_iff]
    intro e _ hcontra
    rw [Bool.and_eq_true, decide_eq_true_eq, decide_eq_true_eq] at hcontra
    exact absurd (le_trans hcontra.1 hcontra.2) (not_le.mpr h)
  simp [filtered, h1]

/-- C9 witness: an inverted range empties a nonempty concrete list. -/
theorem filtered_empty_range_witness :
    (4:ℚ) < 5 ∧ filtered [evA] 5 4 "x" = [] :=
  ⟨by norm_num, filtered_empty_range [evA] 5 4 "x" (by norm_num)⟩

/-- C10 counterexample: in the initial state of the pipeline — before any
fetch has started, with no fetch in flight — `loading` is already true
(App.jsx line 35 initializes it to `true`), refuting the claim that
`loading` is false in every state with no fetch in flight. -/
theorem loading_initial_counterexample :
    (runTrace []).inFlight = 0 ∧ (runTrace []).rs.loading = true :=
  ⟨rfl, rfl⟩

/-- C10 amended: starting a fetch sets `loading` true and completing one sets
it false; `loading` is also true in the initial state by initialization, so
in every reachable state where `loading` is true, either nothing has happened
yet (the initial state) or at least one fetch is in flight. -/
theorem loading_spec :
    (∀ s : SysState, (sysStep s FetchAction.start).rs.loading = true) ∧
    (∀ (s : SysState) (o : FetchOutcome),
      (sysStep s (FetchAction.finish o)).rs.loading = false) ∧
    initSys.rs.loading = true ∧
    (∀ t : List FetchAction,
      (runTrace t).rs.loading = true → t = [] ∨ 0 < (runTrace t).inFlight) := by
  refine ⟨fun s => rfl, fun s o => ?_, rfl, ?_⟩
  · cases o <;> rfl
  · intro t ht
    cases t with
    | nil => exact Or.inl rfl
    | cons a t =>
      cases a with
      | start => exact Or.inr (Nat.succ_pos _)
      | finish o =>
        exfalso
        have hfalse :
            (runTrace (FetchAction.finish o :: t)).rs.loading = false := by
          show (sysStep (runTrace t) (FetchAction.finish o)).rs.loading = false
          cases o <;> rfl
        rw [hfalse] at ht
        exact Bool.false_ne_true ht

/-- C10 witness: after a single start action, a fetch is in flight. -/
theorem loading_spec_witness :
    [FetchAction.start] = ([] : List FetchAction) ∨
      0 < (runTrace [FetchAction.start]).inFlight :=
  loading_spec.2.2.2 [FetchAction.start] rfl
